import Mathlib

/-!
Shallow embedding of the cvmfs-publisher-tools / conveyor job pipeline
(packages `consume`, `jobdb` and `cvmfs` of `internal/consume/consume.go`,
plus the `commands` callers), together with theorems settling the frozen
claims about it.

Conventions of the embedding:
* Go strings are byte sequences; where a claim needs byte-level structure
  (indexing, splitting, base64) they are modelled as `List Char`, elsewhere
  as Lean `String`.
* Go byte slices are `List Nat` with an explicit `< 256` bound where the
  value range matters.
* Fallible Go calls return `Except`/`Option`; a Go panic is `Option.none`.
* External library calls (the gzip compressor, the SQL driver) are
  parameters of the embedded functions: the embedding is exactly the code
  of this repository composed around them.
-/

namespace Conveyor

/-! Base64 (encoding/base64 StdEncoding), as used by packScript/unpackScript

`packScript` gzip-compresses its input and encodes the compressed bytes with
`base64.StdEncoding.EncodeToString`; `unpackScript` decodes with
`base64.StdEncoding.DecodeString` and decompresses.  The standard encoding is
the RFC 4648 alphabet with `=` padding; Go's non-strict decoder ignores the
unused trailing bits of a final partial group, which the model mirrors. -/

/-- The RFC 4648 standard base64 alphabet used by `base64.StdEncoding`. -/
def b64alphabet : List Char :=
  ['A', 'B', 'C', 'D', 'E', 'F', 'G', 'H', 'I', 'J', 'K', 'L', 'M',
   'N', 'O', 'P', 'Q', 'R', 'S', 'T', 'U', 'V', 'W', 'X', 'Y', 'Z',
   'a', 'b', 'c', 'd', 'e', 'f', 'g', 'h', 'i', 'j', 'k', 'l', 'm',
   'n', 'o', 'p', 'q', 'r', 's', 't', 'u', 'v', 'w', 'x', 'y', 'z',
   '0', '1', '2', '3', '4', '5', '6', '7', '8', '9', '+', '/']

/-- Map a 6-bit value to its base64 alphabet character. -/
def encC (v : Nat) : Char := b64alphabet.getD v 'A'

/-- Map a character back to its 6-bit value; `none` for characters outside
the alphabet (Go's decoder reports `CorruptInputError` there). -/
def decC (c : Char) : Option Nat :=
  let i := b64alphabet.indexOf c
  if i < 64 then some i else none

/-- Function `base64.StdEncoding.EncodeToString`: encode bytes in groups of three,
padding a trailing group of one byte with `==` and of two bytes with `=`. -/
def b64encode : List Nat → List Char
  | [] => []
  | [b0] =>
    [encC (b0 / 4), encC (b0 % 4 * 16), '=', '=']
  | [b0, b1] =>
    [encC (b0 / 4), encC (b0 % 4 * 16 + b1 / 16), encC (b1 % 16 * 4), '=']
  | b0 :: b1 :: b2 :: rest =>
    encC (b0 / 4) :: encC (b0 % 4 * 16 + b1 / 16) ::
      encC (b1 % 16 * 4 + b2 / 64) :: encC (b2 % 64) :: b64encode rest

/-- Function `base64.StdEncoding.DecodeString`: decode four characters at a time; a
final group may carry `=` padding; any other input is corrupt (`none`). -/
def b64decode : List Char → Option (List Nat)
  | [] => some []
  | c0 :: c1 :: c2 :: c3 :: rest =>
    match decC c0, decC c1 with
    | some v0, some v1 =>
      if c2 = '=' then
        if c3 = '=' ∧ rest = [] then some [v0 * 4 + v1 / 16] else none
      else
        match decC c2 with
        | some v2 =>
          if c3 = '=' then
            if rest = [] then some [v0 * 4 + v1 / 16, v1 % 16 * 16 + v2 / 4]
            else none
          else
            match decC c3 with
            | some v3 =>
              (b64decode rest).map
                (fun tl => (v0 * 4 + v1 / 16) :: (v1 % 16 * 16 + v2 / 4) ::
                  (v2 % 4 * 64 + v3) :: tl)
            | none => none
        | none => none
    | _, _ => none
  | _ => none

/-- Function `packScript` (cvmfs package): read the whole script, gzip-compress it
(external `compress/gzip`, passed as `gz`), then base64-encode the
compressed bytes. -/
def packScript (gz : List Nat → List Nat) (data : List Nat) : List Char :=
  b64encode (gz data)

/-- Function `unpackScript` (cvmfs package): base64-decode the body, then gunzip it
(external `compress/gzip`, passed as `gunz`); the result is what is written
to `dest`. -/
def unpackScript (gunz : List Nat → Option (List Nat)) (body : List Char) :
    Option (List Nat) :=
  (b64decode body).bind gunz

theorem decC_encC : ∀ v : Fin 64, decC (encC v.val) = some v.val := by decide

theorem encC_ne_pad : ∀ v : Fin 64, encC v.val ≠ '=' := by decide

theorem decC_encC_of_lt {v : Nat} (h : v < 64) : decC (encC v) = some v :=
  decC_encC ⟨v, h⟩

theorem encC_ne_pad_of_lt {v : Nat} (h : v < 64) : encC v ≠ '=' :=
  encC_ne_pad ⟨v, h⟩

theorem b64_roundtrip :
    ∀ l : List Nat, (∀ b ∈ l, b < 256) → b64decode (b64encode l) = some l := by
  intro l
  induction l using b64encode.induct with
  | case1 =>
    intro _
    simp [b64encode, b64decode]
  | case2 b0 =>
    intro h
    have hb0 : b0 < 256 := h b0 (by simp)
    have e0 : decC (encC (b0 / 4)) = some (b0 / 4) :=
      decC_encC_of_lt (by omega)
    have e1 : decC (encC (b0 % 4 * 16)) = some (b0 % 4 * 16) :=
      decC_encC_of_lt (by omega)
    simp [b64encode, b64decode, e0, e1]
    omega
  | case3 b0 b1 =>
    intro h
    have hb0 : b0 < 256 := h b0 (by simp)
    have hb1 : b1 < 256 := h b1 (by simp)
    have e0 : decC (encC (b0 / 4)) = some (b0 / 4) :=
      decC_encC_of_lt (by omega)
    have e1 : decC (encC (b0 % 4 * 16 + b1 / 16)) =
        some (b0 % 4 * 16 + b1 / 16) := decC_encC_of_lt (by omega)
    have e2 : decC (encC (b1 % 16 * 4)) = some (b1 % 16 * 4) :=
      decC_encC_of_lt (by omega)
    have n2 : ¬(encC (b1 % 16 * 4) = '=') := encC_ne_pad_of_lt (by omega)
    simp [b64encode, b64decode, e0, e1, e2, n2]
    omega
  | case4 b0 b1 b2 rest ih =>
    intro h
    have hb0 : b0 < 256 := h b0 (by simp)
    have hb1 : b1 < 256 := h b1 (by simp)
    have hb2 : b2 < 256 := h b2 (by simp)
    have hrest : ∀ b ∈ rest, b < 256 := fun b hb => h b (by simp [hb])
    have e0 : decC (encC (b0 / 4)) = some (b0 / 4) :=
      decC_encC_of_lt (by omega)
    have e1 : decC (encC (b0 % 4 * 16 + b1 / 16)) =
        some (b0 % 4 * 16 + b1 / 16) := decC_encC_of_lt (by omega)
    have e2 : decC (encC (b1 % 16 * 4 + b2 / 64)) =
        some (b1 % 16 * 4 + b2 / 64) := decC_encC_of_lt (by omega)
    have e3 : decC (encC (b2 % 64)) = some (b2 % 64) :=
      decC_encC_of_lt (by omega)
    have n2 : ¬(encC (b1 % 16 * 4 + b2 / 64) = '=') :=
      encC_ne_pad_of_lt (by omega)
    have n3 : ¬(encC (b2 % 64) = '=') := encC_ne_pad_of_lt (by omega)
    simp [b64encode, b64decode, e0, e1, e2, e3, n2, n3, ih hrest]
    omega

/-- Claim C3: packing a script (gzip, then standard base64) and unpacking the
result (base64 decode, then gunzip) gives back exactly the original bytes.
The gzip compressor/decompressor pair is the external `compress/gzip`
library; the hypotheses state its contract on this input: the compressed
stream is a byte sequence and decompressing it restores the input. -/
theorem unpackScript_packScript (gz : List Nat → List Nat)
    (gunz : List Nat → Option (List Nat)) (data : List Nat)
    (hbytes : ∀ b ∈ gz data, b < 256)
    (hinv : gunz (gz data) = some data) :
    unpackScript gunz (packScript gz data) = some data := by
  unfold unpackScript packScript
  rw [b64_roundtrip (gz data) hbytes]
  simpa using hinv

/-- Witness for C3 at a concrete script body, with a concrete
compressor/decompressor pair satisfying the round-trip contract. -/
theorem unpackScript_packScript_witness :
    unpackScript some (packScript id [104, 101, 108, 108, 111]) =
      some [104, 101, 108, 108, 111] :=
  unpackScript_packScript id some [104, 101, 108, 108, 111]
    (by decide) (by decide)

/-! JobSpecification.Prepare (cvmfs package)

`Prepare` first normalizes `RepositoryPath` — it reads byte 0 of the string
unconditionally, so an empty path panics with an index-out-of-range — and
then, when a script is given and `TransferScript` is set, replaces `Script`
by its packed encoding.  Opening and packing the script file is I/O; its
outcome is the `packRes` parameter.  A Go panic is modelled as `none`. -/

/-- The fields of `cvmfs.JobSpecification`; `RepositoryPath` is kept as a
character list because `Prepare` indexes into it byte by byte. -/
structure JobSpecification where
  Repository : String
  Payload : String
  RepositoryPath : List Char
  Script : String
  ScriptArgs : String
  TransferScript : Bool
  Dependencies : List String
deriving DecidableEq, Repr

/-- Method `JobSpecification.Prepare`: prepend `'/'` to `RepositoryPath` unless it
already starts with one, then pack the script if `Script` is non-empty and
`TransferScript` is set.  `none` models the panic on an empty path;
`Except.error` models a failed open/pack of the script file. -/
def Prepare (packRes : Except String String) (s : JobSpecification) :
    Option (Except String JobSpecification) :=
  match s.RepositoryPath with
  | [] => none
  | c :: cs =>
    let s1 := { s with RepositoryPath :=
      if c = '/' then c :: cs else '/' :: c :: cs }
    if s1.Script ≠ "" then
      if s1.TransferScript then
        match packRes with
        | Except.error e => some (Except.error e)
        | Except.ok packed => some (Except.ok { s1 with Script := packed })
      else some (Except.ok s1)
    else some (Except.ok s1)

/-- Claim C4: for a non-empty `RepositoryPath`, `Prepare` returns (does not
panic), and in every successful outcome the path starts with `'/'`: it is
unchanged when it already started with `'/'` and gets `'/'` prepended
otherwise. -/
theorem Prepare_normalizes_path (packRes : Except String String)
    (s : JobSpecification) (hne : s.RepositoryPath ≠ []) :
    (Prepare packRes s).isSome ∧
    ∀ s1, Prepare packRes s = some (Except.ok s1) →
      s1.RepositoryPath.head? = some '/' ∧
      (s.RepositoryPath.head? = some '/' →
        s1.RepositoryPath = s.RepositoryPath) ∧
      (s.RepositoryPath.head? ≠ some '/' →
        s1.RepositoryPath = '/' :: s.RepositoryPath) := by
  match hsp : s.RepositoryPath with
  | [] => exact absurd hsp hne
  | c :: cs =>
    constructor
    · unfold Prepare
      rw [hsp]
      by_cases hScr : ({ s with RepositoryPath :=
          if c = '/' then c :: cs else '/' :: c :: cs } :
          JobSpecification).Script ≠ "" <;>
        by_cases hT : s.TransferScript <;>
        cases packRes <;>
        simp_all
    · intro s1 h1
      unfold Prepare at h1
      rw [hsp] at h1
      by_cases hc : c = '/' <;>
        by_cases hScr : s.Script = "" <;>
        by_cases hT : s.TransferScript <;>
        cases packRes <;>
        simp_all [hsp] <;>
        simp [← h1]

/-- Witness for C4: a path without a leading separator gets one. -/
theorem Prepare_normalizes_path_witness :
    (Prepare (Except.ok "")
        { Repository := "r", Payload := "", RepositoryPath := ['f', 'o', 'o'],
          Script := "", ScriptArgs := "", TransferScript := false,
          Dependencies := [] }).isSome ∧
    ∀ s1, Prepare (Except.ok "")
        { Repository := "r", Payload := "", RepositoryPath := ['f', 'o', 'o'],
          Script := "", ScriptArgs := "", TransferScript := false,
          Dependencies := [] } = some (Except.ok s1) →
      s1.RepositoryPath.head? = some '/' ∧
      (['f', 'o', 'o'].head? = some '/' → s1.RepositoryPath = ['f', 'o', 'o']) ∧
      (['f', 'o', 'o'].head? ≠ some '/' →
        s1.RepositoryPath = '/' :: ['f', 'o', 'o']) :=
  Prepare_normalizes_path (Except.ok "")
    { Repository := "r", Payload := "", RepositoryPath := ['f', 'o', 'o'],
      Script := "", ScriptArgs := "", TransferScript := false,
      Dependencies := [] } (by decide)

/-- Claim C9: `Prepare` reads `RepositoryPath[0]` unconditionally, so it returns
(any value at all, error included) exactly when the path is non-empty; on
the empty path it panics (modelled by `none`) instead of returning an
error. -/
theorem Prepare_empty_path_panics (packRes : Except String String)
    (s : JobSpecification) :
    (Prepare packRes s).isSome ↔ s.RepositoryPath ≠ [] := by
  match hsp : s.RepositoryPath with
  | [] => simp [Prepare, hsp]
  | c :: cs =>
    unfold Prepare
    rw [hsp]
    constructor
    · intro _
      simp
    · intro _
      by_cases hScr : ({ s with RepositoryPath :=
          if c = '/' then c :: cs else '/' :: c :: cs } :
          JobSpecification).Script ≠ "" <;>
        by_cases hT : s.TransferScript <;>
        cases packRes <;>
        simp_all

/-! The consumer loop (consume package, `Run`)

`Run`'s steady state is one `for j := range jobs` loop.  Per delivery it
(1) unmarshals the body into a `job.Description` — on failure it calls
`j.Nack(false, false)` and `continue`s; (2) runs the publish transaction
around a fetch task — on failure it calls `j.Nack(false, true)` and
`continue`s; (3) otherwise it calls `j.Ack(false)`.  The embedding maps a
delivery (its unmarshal outcome) and the transaction runner (external
`transaction.Run` around `getter.GetFile`) to the acknowledgment emitted
plus whether a transaction was attempted. -/

/-- The fields of `job.Description` used by `Run`. -/
structure Description where
  ID : String
  Repo : String
  Path : String
  Payload : String
deriving DecidableEq, Repr

/-- The acknowledgment a consumer sends for one delivery. -/
inductive MsgAction where
  | ack
  | nack (requeue : Bool)
deriving DecidableEq, Repr

/-- One iteration of `Run`'s loop: `body` is the unmarshal outcome of the
delivered message (`none` = `json.Unmarshal` error) and `runTransaction`
is `transaction.Run` applied to the fetch task.  Returns the emitted
acknowledgment and whether a transaction was attempted. -/
def RunStep (body : Option Description)
    (runTransaction : Description → Except String Unit) :
    MsgAction × Bool :=
  match body with
  | none => (MsgAction.nack false, false)
  | some desc =>
    match runTransaction desc with
    | Except.error _ => (MsgAction.nack true, true)
    | Except.ok _ => (MsgAction.ack, true)

/-- The loop of `Run` over a whole sequence of deliveries: each is handled by
`RunStep` and the loop `continue`s to the next delivery regardless of the
outcome. -/
def RunLoop (bodies : List (Option Description))
    (runTransaction : Description → Except String Unit) : List MsgAction :=
  bodies.map (fun b => (RunStep b runTransaction).1)

/-- Claim C6: a delivery whose body does not unmarshal is Nacked with
requeue = false, no transaction is attempted for it, and the loop keeps
processing the remaining deliveries. -/
theorem RunStep_malformed (runTransaction : Description → Except String Unit)
    (rest : List (Option Description)) :
    RunStep none runTransaction = (MsgAction.nack false, false) ∧
    RunLoop (none :: rest) runTransaction =
      MsgAction.nack false :: RunLoop rest runTransaction := by
  constructor <;> rfl

/-- A job description whose payload fetch always fails. -/
def failingDesc : Description :=
  { ID := "b61a8886-a1f9-4371-b0f4-4312a1e2e24e", Repo := "test.repo.org",
    Path := "/new", Payload := "http://unreachable.invalid/payload.tar.gz" }

/-- A transaction runner that fails on every attempt, as an unreachable
payload URL makes `transaction.Run` do. -/
def failingTransaction : Description → Except String Unit :=
  fun _ => Except.error "could not download payload"

/-- Claim C1, divergence at the code: for a job whose transaction step fails on
every attempt, every single delivery of the message is Nacked with
requeue = true — five consecutive redeliveries produce five requeues — and
no delivery is ever Acked.  `Run` keeps no attempt counter, so the message
never leaves the queue and no failed outcome is recorded. -/
theorem RunStep_requeues_failing_job_forever :
    RunStep (some failingDesc) failingTransaction = (MsgAction.nack true, true) ∧
    RunLoop (List.replicate 5 (some failingDesc)) failingTransaction =
      List.replicate 5 (MsgAction.nack true) ∧
    MsgAction.ack ∉ RunLoop (List.replicate 5 (some failingDesc))
      failingTransaction := by
  refine ⟨rfl, rfl, by decide⟩

/-! The job database (jobdb package)

`GetJob`/`GetJobs` run a query through `database/sql` and scan the returned
rows with `scanRow`.  The embedding abstracts the driver: a query outcome
is `Except String (List α)` (`Except.error` = `db.Query` failed, otherwise
the sequence of raw rows), and row scanning is `scan : α → Except String
job.Processed` (`Except.error` = `rows.Scan` failed).  The second
component of each result is the Go `error` return value (`none` = `nil`). -/

/-- Type `job.Status`: a job ID and its completion status. -/
structure JobStatus where
  ID : String
  Successful : Bool
deriving DecidableEq, Repr

/-- Type `job.Processed`, with the twelve fields written and scanned by the
jobdb package, in column order. -/
structure Processed where
  ID : String
  Repository : String
  Payload : String
  RepositoryPath : String
  Script : String
  ScriptArgs : String
  TransferScript : Bool
  Dependencies : List (List Char)
  StartTime : Nat
  FinishTime : Nat
  Successful : Bool
  ErrorMessage : String
deriving DecidableEq, Repr

/-- Type `job.GetJobReply`: status, reason, and the brief/full result lists. -/
structure GetJobReply where
  Status : String
  Reason : String
  IDs : List JobStatus
  Jobs : List Processed
deriving DecidableEq, Repr

/-- Method `Backend.GetJob`: one query, at most one row.  An error reply is
produced exactly when the query or the row scan fails; an unknown ID
(no rows) is an ok reply with nothing in it. -/
def GetJob {α : Type} (queryRes : Except String (List α))
    (scan : α → Except String Processed) (full : Bool) :
    GetJobReply × Option String :=
  match queryRes with
  | Except.error e =>
    ({ Status := "error", Reason := "query error", IDs := [], Jobs := [] },
      some e)
  | Except.ok [] =>
    ({ Status := "ok", Reason := "", IDs := [], Jobs := [] }, none)
  | Except.ok (r :: _) =>
    match scan r with
    | Except.error e =>
      ({ Status := "error", Reason := "query failed", IDs := [], Jobs := [] },
        some e)
    | Except.ok st =>
      if full then
        ({ Status := "ok", Reason := "", IDs := [], Jobs := [st] }, none)
      else
        ({ Status := "ok"
           Reason := ""
           IDs := [{ ID := st.ID, Successful := st.Successful }]
           Jobs := [] }, none)

/-- The row loop of `Backend.GetJobs`: append each scanned row to the
accumulated reply; on a scan failure, reset both result lists to empty and
return the error reply immediately. -/
def getJobsRows {α : Type} (scan : α → Except String Processed) (full : Bool) :
    List α → GetJobReply → GetJobReply × Option String
  | [], acc => (acc, none)
  | r :: rest, acc =>
    match scan r with
    | Except.error e =>
      ({ acc with
          Status := "error"
          Reason := "SQL query scan failed"
          IDs := []
          Jobs := [] }, some e)
    | Except.ok st =>
      getJobsRows scan full rest
        (if full then { acc with Jobs := acc.Jobs ++ [st] }
         else { acc with
           IDs := acc.IDs ++ [{ ID := st.ID, Successful := st.Successful }] })

/-- Method `Backend.GetJobs`: builds an `in (...)` query over `ids` — indexing
`ids[0 : len(ids)-1]` and `params[len(ids)-1]`, which panics on an empty
batch (`none`) — then runs the query and scans each row. -/
def GetJobs {α : Type} (ids : List String)
    (queryRes : Except String (List α))
    (scan : α → Except String Processed) (full : Bool) :
    Option (GetJobReply × Option String) :=
  match ids with
  | [] => none
  | _ :: _ =>
    match queryRes with
    | Except.error e =>
      some ({ Status := "error"
              Reason := "SQL query failed"
              IDs := []
              Jobs := [] }, some e)
    | Except.ok rows =>
      some (getJobsRows scan full rows
        { Status := "ok", Reason := "", IDs := [], Jobs := [] })

theorem getJobsRows_error {α : Type} (scan : α → Except String Processed)
    (full : Bool) :
    ∀ (rows : List α) (acc : GetJobReply) (e : String),
      (getJobsRows scan full rows acc).2 = some e →
      (getJobsRows scan full rows acc).1.Status = "error" ∧
      (getJobsRows scan full rows acc).1.IDs = [] ∧
      (getJobsRows scan full rows acc).1.Jobs = [] := by
  intro rows
  induction rows with
  | nil => intro acc e h; simp [getJobsRows] at h
  | cons r rest ih =>
    intro acc e h
    cases hscan : scan r with
    | error e1 => simp [getJobsRows, hscan] at h ⊢
    | ok st =>
      simp only [getJobsRows, hscan] at h ⊢
      exact ih _ e h

theorem getJobsRows_ok_status {α : Type} (scan : α → Except String Processed)
    (full : Bool) :
    ∀ (rows : List α) (acc : GetJobReply),
      (getJobsRows scan full rows acc).2 = none →
      (getJobsRows scan full rows acc).1.Status = acc.Status := by
  intro rows
  induction rows with
  | nil => intro acc _; rfl
  | cons r rest ih =>
    intro acc h
    cases hscan : scan r with
    | error e1 => simp [getJobsRows, hscan] at h
    | ok st =>
      simp only [getJobsRows, hscan] at h ⊢
      rw [ih _ h]
      by_cases hf : full = true <;> simp [hf]

/-- Claim C2: on a batch of at least one ID, `GetJobs` returns (does not panic)
and is all-or-nothing: when it reports a non-nil error the reply has
status "error" and both result lists empty (no mixed result); when the
error is nil the reply status is "ok". -/
theorem GetJobs_all_or_nothing {α : Type} (ids : List String)
    (queryRes : Except String (List α))
    (scan : α → Except String Processed) (full : Bool)
    (hne : ids ≠ []) :
    ∃ reply errOut, GetJobs ids queryRes scan full = some (reply, errOut) ∧
      (∀ e, errOut = some e →
        reply.Status = "error" ∧ reply.IDs = [] ∧ reply.Jobs = []) ∧
      (errOut = none → reply.Status = "ok") := by
  match ids with
  | [] => exact absurd rfl hne
  | i :: is =>
    match queryRes with
    | Except.error e =>
      exact ⟨_, _, rfl, fun e1 _ => ⟨rfl, rfl, rfl⟩, fun h => by simp at h⟩
    | Except.ok rows =>
      refine ⟨_, _, rfl, ?_, ?_⟩
      · intro e1 h
        exact getJobsRows_error scan full rows _ e1 h
      · intro h
        exact getJobsRows_ok_status scan full rows _ h

/-- Witness for C2 at a one-ID batch whose single row fails to scan: the
reply is all-or-nothing. -/
theorem GetJobs_all_or_nothing_witness :
    ∃ reply errOut,
      GetJobs ["b61a8886-a1f9-4371-b0f4-4312a1e2e24e"]
        (Except.ok [false]) (fun _ => Except.error "scan failed") true =
        some (reply, errOut) ∧
      (∀ e, errOut = some e →
        reply.Status = "error" ∧ reply.IDs = [] ∧ reply.Jobs = []) ∧
      (errOut = none → reply.Status = "ok") :=
  GetJobs_all_or_nothing ["b61a8886-a1f9-4371-b0f4-4312a1e2e24e"]
    (Except.ok [false]) (fun _ => Except.error "scan failed") true
    (by decide)

/-- Claim C5: `GetJob` on an unknown ID (a query that returns no rows) replies
status "ok" with empty reason and no result entries, with a nil error; and
for every query outcome, the error return is non-nil exactly when the query
itself or the scan of the returned row failed, and the reply status is
"error" exactly when the error return is non-nil. -/
theorem GetJob_not_found_is_ok {α : Type}
    (scan : α → Except String Processed) (full : Bool) :
    GetJob (Except.ok ([] : List α)) scan full =
      ({ Status := "ok", Reason := "", IDs := [], Jobs := [] }, none) ∧
    ∀ queryRes : Except String (List α),
      ((GetJob queryRes scan full).2 ≠ none ↔
        ((∃ e, queryRes = Except.error e) ∨
         (∃ r rest, queryRes = Except.ok (r :: rest) ∧
           ∃ e, scan r = Except.error e))) ∧
      ((GetJob queryRes scan full).1.Status = "error" ↔
        (GetJob queryRes scan full).2 ≠ none) := by
  refine ⟨rfl, ?_⟩
  intro queryRes
  match queryRes with
  | Except.error e => simp [GetJob]
  | Except.ok [] => simp [GetJob]
  | Except.ok (r :: rest) =>
    match hscan : scan r with
    | Except.error e => simp [GetJob, hscan]
    | Except.ok st =>
      by_cases hf : full = true <;> simp [GetJob, hscan, hf]

/-! PutJob and scanRow: and the Dependencies column (jobdb package)

`PutJob` stores `strings.Join(j.Dependencies, ",")` in the `Dependencies`
column; `scanRow` reads the column back and, when it is non-empty, splits
it with `strings.Split(deps, ",")` (an empty column leaves the field as the
nil slice).  The embedding writes the twelve column values of the insert
statement into a typed `Row` and reads them back. -/

/-- Go `strings.Join(deps, ",")`. -/
def joinDeps : List (List Char) → List Char
  | [] => []
  | [d] => d
  | d :: rest => d ++ ',' :: joinDeps rest

/-- Go `strings.Split(s, ",")`: split at every comma; splitting the empty
string yields one empty field. -/
def splitOnComma : List Char → List (List Char)
  | [] => [[]]
  | c :: rest =>
    if c = ',' then [] :: splitOnComma rest
    else
      match splitOnComma rest with
      | [] => [[c]]
      | h :: t => (c :: h) :: t

/-- The twelve column values inserted by `PutJob`, in statement order. -/
structure Row where
  ID : String
  Repository : String
  Payload : String
  RepositoryPath : String
  Script : String
  ScriptArgs : String
  TransferScript : Bool
  Dependencies : List Char
  StartTime : Nat
  FinishTime : Nat
  Successful : Bool
  ErrorMessage : String
deriving DecidableEq, Repr

/-- The row `PutJob` inserts for a processed job: every field verbatim,
`Dependencies` comma-joined. -/
def PutJobRow (j : Processed) : Row :=
  { ID := j.ID
    Repository := j.Repository
    Payload := j.Payload
    RepositoryPath := j.RepositoryPath
    Script := j.Script
    ScriptArgs := j.ScriptArgs
    TransferScript := j.TransferScript
    Dependencies := joinDeps j.Dependencies
    StartTime := j.StartTime
    FinishTime := j.FinishTime
    Successful := j.Successful
    ErrorMessage := j.ErrorMessage }

/-- Function `scanRow` on a well-typed row: every column verbatim; a non-empty
`Dependencies` column is split on commas, an empty one stays the nil
slice. -/
def scanRow (r : Row) : Processed :=
  { ID := r.ID
    Repository := r.Repository
    Payload := r.Payload
    RepositoryPath := r.RepositoryPath
    Script := r.Script
    ScriptArgs := r.ScriptArgs
    TransferScript := r.TransferScript
    Dependencies :=
      if r.Dependencies = [] then [] else splitOnComma r.Dependencies
    StartTime := r.StartTime
    FinishTime := r.FinishTime
    Successful := r.Successful
    ErrorMessage := r.ErrorMessage }

theorem splitOnComma_no_comma (d : List Char) (h : ',' ∉ d) :
    splitOnComma d = [d] := by
  induction d with
  | nil => rfl
  | cons c cs ih =>
    have hc : ¬(c = ',') := fun hcc => h (by simp [hcc])
    have hcs : ',' ∉ cs := fun hmem => h (by simp [hmem])
    simp [splitOnComma, hc, ih hcs]

theorem splitOnComma_append (d s : List Char) (h : ',' ∉ d) :
    splitOnComma (d ++ ',' :: s) = d :: splitOnComma s := by
  induction d with
  | nil => simp [splitOnComma]
  | cons c cs ih =>
    have hc : ¬(c = ',') := fun hcc => h (by simp [hcc])
    have hcs : ',' ∉ cs := fun hmem => h (by simp [hmem])
    simp [splitOnComma, hc, ih hcs]

theorem joinDeps_ne_nil (d : List Char) (rest : List (List Char))
    (hd : d ≠ []) : joinDeps (d :: rest) ≠ [] := by
  cases rest with
  | nil => simpa [joinDeps] using hd
  | cons e t =>
    cases d with
    | nil => simp [joinDeps]
    | cons c cs => simp [joinDeps]

theorem depsRoundtrip :
    ∀ l : List (List Char), (∀ d ∈ l, d ≠ [] ∧ ',' ∉ d) →
      (if joinDeps l = [] then [] else splitOnComma (joinDeps l)) = l := by
  intro l
  induction l with
  | nil => intro _; simp [joinDeps]
  | cons d rest ih =>
    intro h
    have hd : d ≠ [] ∧ ',' ∉ d := h d (by simp)
    cases rest with
    | nil =>
      rw [if_neg (joinDeps_ne_nil d [] hd.1)]
      simp [joinDeps, splitOnComma_no_comma d hd.2]
    | cons e t =>
      have hrest : ∀ x ∈ e :: t, x ≠ [] ∧ ',' ∉ x :=
        fun x hx => h x (by simp [hx])
      have he : e ≠ [] ∧ ',' ∉ e := hrest e (by simp)
      have hjoin : joinDeps (d :: e :: t) = d ++ ',' :: joinDeps (e :: t) :=
        rfl
      rw [if_neg (joinDeps_ne_nil d (e :: t) hd.1), hjoin,
        splitOnComma_append d (joinDeps (e :: t)) hd.2]
      have ihr := ih hrest
      rw [if_neg (joinDeps_ne_nil e t he.1)] at ihr
      rw [ihr]

/-- Claim C10: a job whose dependencies are all non-empty and comma-free is
read back from its inserted row unchanged (`scanRow` after `PutJob`'s
column values is the identity), and an empty dependency list passes
through the empty joined column back to an empty list. -/
theorem PutJob_scanRow_roundtrip (j : Processed)
    (h : ∀ d ∈ j.Dependencies, d ≠ [] ∧ ',' ∉ d) :
    scanRow (PutJobRow j) = j ∧
    (j.Dependencies = [] → (PutJobRow j).Dependencies = []) := by
  constructor
  · have hdeps := depsRoundtrip j.Dependencies h
    cases j with
    | mk ID Repository Payload RepositoryPath Script ScriptArgs
        TransferScript Dependencies StartTime FinishTime Successful
        ErrorMessage =>
      simp only [scanRow, PutJobRow, Processed.mk.injEq]
      simp_all
  · intro hnil
    simp [PutJobRow, hnil, joinDeps]

/-- Witness for C10 at a job with two dependencies and at one with none. -/
theorem PutJob_scanRow_roundtrip_witness :
    scanRow (PutJobRow
      { ID := "b61a8886-a1f9-4371-b0f4-4312a1e2e24e"
        Repository := "test.repo.org"
        Payload := "http://host/payload.tar.gz"
        RepositoryPath := "/new"
        Script := ""
        ScriptArgs := ""
        TransferScript := false
        Dependencies := [['a'], ['b', 'c']]
        StartTime := 10
        FinishTime := 20
        Successful := true
        ErrorMessage := "" }) =
      { ID := "b61a8886-a1f9-4371-b0f4-4312a1e2e24e"
        Repository := "test.repo.org"
        Payload := "http://host/payload.tar.gz"
        RepositoryPath := "/new"
        Script := ""
        ScriptArgs := ""
        TransferScript := false
        Dependencies := [['a'], ['b', 'c']]
        StartTime := 10
        FinishTime := 20
        Successful := true
        ErrorMessage := "" } ∧
    ([['a'], ['b', 'c']] = ([] : List (List Char)) →
      (PutJobRow
        { ID := "b61a8886-a1f9-4371-b0f4-4312a1e2e24e"
          Repository := "test.repo.org"
          Payload := "http://host/payload.tar.gz"
          RepositoryPath := "/new"
          Script := ""
          ScriptArgs := ""
          TransferScript := false
          Dependencies := [['a'], ['b', 'c']]
          StartTime := 10
          FinishTime := 20
          Successful := true
          ErrorMessage := "" }).Dependencies = []) :=
  PutJob_scanRow_roundtrip _ (by decide)

/-! Per-job time limit (cvmfs package) -/

/-- Constant `MaxJobDuration` (cvmfs package): the number of seconds that a job is
allowed to take, `2 * 3600`. -/
def MaxJobDuration : Nat := 2 * 3600

/-- The error classes a job execution can end with; a timeout is a
distinct constructor from a script failure. -/
inductive JobError where
  | timeoutExceeded
  | scriptFailure (msg : String)
  | fetchFailure (msg : String)
deriving DecidableEq, Repr

/-- The outcome of one bounded job execution: whether the open publish
transaction was aborted, whether the job succeeded, and the error. -/
structure ExecOutcome where
  txAborted : Bool
  Successful : Bool
  ErrMsg : Option JobError
deriving DecidableEq, Repr

/-- Modelled from the spec: the worker engine's per-job timeout
enforcement (spec §4.3, "Timeout").  The enforcing code is not among the
sources — only the `MaxJobDuration` constant and the worker command that
drives the engine are — so this follows the spec's words: the whole
per-job execution is bounded by `MaxJobDuration`; exceeding it aborts the
transaction and finalizes the job as failed with a timeout error, and any
other failure aborts the transaction and records that failure. -/
def executeJob (elapsed : Nat) (scriptRes : Except JobError Unit) :
    ExecOutcome :=
  if elapsed > MaxJobDuration then
    { txAborted := true
      Successful := false
      ErrMsg := some JobError.timeoutExceeded }
  else
    match scriptRes with
    | Except.error e =>
      { txAborted := true, Successful := false, ErrMsg := some e }
    | Except.ok _ =>
      { txAborted := false, Successful := true, ErrMsg := none }

/-- Claim C8: the limit is 2 hours (7200 seconds), and an execution that exceeds
it is finalized as an aborted, failed job carrying the timeout error,
which is a different error from every script failure. -/
theorem MaxJobDuration_timeout (elapsed : Nat)
    (scriptRes : Except JobError Unit) (h : elapsed > MaxJobDuration) :
    MaxJobDuration = 2 * 3600 ∧
    executeJob elapsed scriptRes =
      { txAborted := true
        Successful := false
        ErrMsg := some JobError.timeoutExceeded } ∧
    ∀ m, JobError.timeoutExceeded ≠ JobError.scriptFailure m := by
  refine ⟨rfl, ?_, fun m => by simp⟩
  simp [executeJob, h]

/-- Witness for C8 one second past the limit, with a script that would
have succeeded. -/
theorem MaxJobDuration_timeout_witness :
    MaxJobDuration = 2 * 3600 ∧
    executeJob 7201 (Except.ok ()) =
      { txAborted := true
        Successful := false
        ErrMsg := some JobError.timeoutExceeded } ∧
    ∀ m, JobError.timeoutExceeded ≠ JobError.scriptFailure m :=
  MaxJobDuration_timeout 7201 (Except.ok ()) (by decide)

/-! The transferred script's temporary file (cvmfs package, `process`)

When a job carries a transferred script, `process` creates
`path.Join(tempDir, "transaction.sh")` with `os.Create` — which opens with
permission bits `0666` — writes the unpacked script into it, and then
executes it with `exec.Command`.  `0666` has no execute bit set. -/

/-- The permission bits `os.Create` passes to `OpenFile`, `0666`. -/
def osCreatePerm : Nat := 0o666

/-- A created file: its path and its permission bits. -/
structure CreatedFile where
  path : String
  perm : Nat
deriving DecidableEq, Repr

/-- The temporary script file `process` creates: for a job with a
non-empty script marked `TransferScript`, the file
`tempDir/transaction.sh` created via `os.Create`; otherwise no file is
created (the script path is used as-is, or there is no script). -/
def processScriptFile (tempDir : String) (script : String)
    (transferScript : Bool) : Option CreatedFile :=
  if script ≠ "" then
    if transferScript then
      some { path := tempDir ++ "/transaction.sh", perm := osCreatePerm }
    else none
  else none

/-- Claim C7, divergence at the code: the temporary file that receives the unpacked
transferred script is created with permission bits `0666`: none of the
three execute bits (`0111`) is set, so the file is not executable when the
script is run. -/
theorem processScriptFile_not_executable :
    processScriptFile "/tmp/cvmfs-consumer" "H4sIAAAAAAAAA8tIzcnJVyjPL8pJAQCFEUoNCwAAAA==" true =
      some { path := "/tmp/cvmfs-consumer/transaction.sh", perm := 0o666 } ∧
    0o666 &&& 0o111 = 0 := by
  constructor
  · rfl
  · rfl

end Conveyor
